import Mathlib

/-!
Shallow embedding of the authentication / access-control subsystem of the
memo-app repository, together with theorems settling the spec claims.

Sources embedded:
- AllowlistService (loadConfig / validateConfig / isValidEmail / checkEmailAllowed)
- ErrorHandlingService (handleError / executeWithRetry / executeWithTimeout /
  getErrorSeverity and the private classifiers)
- GoogleAuthService (handleCredentialResponse, decodeJWT, refreshToken, the
  login-flow resolver slot)
- useAuth (the AuthState updates performed by checkAuthStatus / login / logout)

Conventions:
- JavaScript strings are Lean Strings; character-level work happens on
  String.data (List Char).
- JavaScript String.prototype.toLowerCase is modelled by mapping
  Char.toLower over the characters (ASCII case mapping).
- Fallible code returns Except / Option; thrown JS errors are values of
  RawJsError.
- Asynchronous operations are modelled as pure functions of their inputs;
  an operation run by the retry engine is a function from the attempt index
  to the attempt outcome.
- Ghost fields (e.g. execution counters, storage-write records) record
  facts about the run that the claims talk about; they do not influence
  control flow.
-/

namespace MemoApp

/-! ## Data model (src/types/auth.ts) -/

/-- The closed error taxonomy from types/auth.ts (AuthErrorType). -/
inductive AuthErrorType where
  | OAUTH_FAILED
  | ACCESS_DENIED
  | NETWORK_ERROR
  | TOKEN_EXPIRED
  | CONFIG_ERROR
deriving DecidableEq, Repr

/-- AuthError from types/auth.ts. -/
structure AuthError where
  type : AuthErrorType
  message : String
  retryable : Bool
deriving DecidableEq, Repr

/-- User from types/auth.ts. -/
structure User where
  id : String
  email : String
  name : String
  picture : Option String
deriving DecidableEq, Repr

/-- GoogleOAuthConfig from types/auth.ts. -/
structure GoogleOAuthConfig where
  googleClientId : String
  allowedEmails : List String
  version : String
deriving DecidableEq, Repr

/-- AllowlistCheckResult from types/auth.ts. -/
structure AllowlistCheckResult where
  isAllowed : Bool
  email : String
  reason : Option String
deriving DecidableEq, Repr

/-- GoogleTokenInfo from types/auth.ts. -/
structure GoogleTokenInfo where
  access_token : String
  id_token : String
  expires_in : Nat
  refresh_token : Option String
  scope : String
  token_type : String
deriving DecidableEq, Repr

/-- GoogleJWTPayload from types/auth.ts (the fields the embedded code reads). -/
structure GoogleJWTPayload where
  sub : String
  email : String
  name : String
  picture : Option String
  exp : Nat
  iat : Nat
deriving DecidableEq, Repr

/-- LoginResult from types/auth.ts. -/
structure LoginResult where
  success : Bool
  user : Option User
  error : Option AuthError
deriving DecidableEq, Repr

deriving instance DecidableEq for Except

/-! ## JS string primitives used by the embedded code -/

/-- The character class matched by the regex escape backslash-s in
JavaScript (ECMAScript WhiteSpace plus LineTerminator), by code point:
tab 9, line feed 10, vertical tab 11, form feed 12, carriage return 13,
space 32, no-break space 160, ogham space mark 5760, the en-quad to
hair-space range 8192-8202, line separator 8232, paragraph separator 8233,
narrow no-break space 8239, medium mathematical space 8287, ideographic
space 12288 and the byte-order mark 65279. -/
def jsIsWhitespace (c : Char) : Bool :=
  let n := c.toNat
  n = 9 || n = 10 || n = 11 || n = 12 || n = 13 || n = 32 ||
  n = 160 || n = 5760 || (8192 ≤ n && n ≤ 8202) ||
  n = 8232 || n = 8233 || n = 8239 || n = 8287 || n = 12288 || n = 65279

/-- JavaScript String.prototype.toLowerCase, modelled with the ASCII case
mapping Char.toLower. -/
def jsToLower (s : String) : String :=
  ⟨s.data.map Char.toLower⟩

/-- Split a character list at the first occurrence of a character:
returns the part before and the part after it, or none when absent.
Models indexing into the result of JS String.prototype.split. -/
def splitFirst (c : Char) : List Char → Option (List Char × List Char)
  | [] => none
  | x :: xs =>
    if x = c then some ([], xs)
    else
      match splitFirst c xs with
      | some (a, b) => some (x :: a, b)
      | none => none

/-- Does the list contain two adjacent dot characters?  Models
JS String.prototype.includes applied to a two-dot pattern. -/
def containsDoubleDot : List Char → Bool
  | [] => false
  | [_] => false
  | x :: y :: rest => (x = '.' && y = '.') || containsDoubleDot (y :: rest)

/-- Is there a dot strictly before the last position of the list? -/
def dotBeforeLast : List Char → Bool
  | [] => false
  | [_] => false
  | x :: rest => (x = '.') || dotBeforeLast rest

/-- Does the list contain a dot that is neither its first nor its last
element? -/
def hasInnerDot : List Char → Bool
  | [] => false
  | _ :: rest => dotBeforeLast rest

/-- A character admitted by the regex character class excluding whitespace
and the at sign. -/
def emailCharOk (c : Char) : Bool :=
  !jsIsWhitespace c && c ≠ '@'

/-! ## AllowlistService (src/services/allowlistService.ts) -/

/-- The test performed by the regex anchored-local-at-domain-dot pattern of
AllowlistService.isValidEmail: one at sign splitting the string into a
non-empty local part and a domain, no whitespace or further at signs
anywhere, and a dot inside the domain that is neither its first nor its
last character.  (A backtracking regex with two character-class runs
around a literal dot matches the domain exactly under this condition.) -/
def emailRegexTest (l : List Char) : Bool :=
  match splitFirst '@' l with
  | none => false
  | some (loc, domain) =>
    !loc.isEmpty && loc.all emailCharOk && domain.all emailCharOk &&
      hasInnerDot domain

/-- AllowlistService.isValidEmail (lines 82-101 of the source): regex
test, then a rejection of consecutive dots anywhere in the address, then a
rejection of a domain that starts or ends with a dot. -/
def isValidEmail (email : String) : Bool :=
  let l := email.data
  if !emailRegexTest l then false
  else if containsDoubleDot l then false
  else
    match splitFirst '@' l with
    | some (_, domain) =>
      !(domain.head? = some '.') && !(domain.getLast? = some '.')
    | none => false

/-- AllowlistService.checkEmailAllowed (lines 108-142), for a service
whose config field holds a loaded GoogleOAuthConfig (the lazy-load branch
has already run).  Verdict: syntactically invalid input emails are
rejected with a reason; otherwise a case-insensitive membership test
against allowedEmails decides. -/
def checkEmailAllowed (config : GoogleOAuthConfig) (email : String) :
    AllowlistCheckResult :=
  if !isValidEmail email then
    { isAllowed := false, email := email,
      reason := some "メールアドレスの形式が無効です" }
  else
    let normalizedEmail := jsToLower email
    let isAllowed :=
      config.allowedEmails.any (fun allowedEmail =>
        jsToLower allowedEmail = normalizedEmail)
    { isAllowed := isAllowed, email := email,
      reason := if isAllowed then none
        else some "このメールアドレスは許可リストに含まれていません" }

/-! ## loadConfig / validateConfig (src/services/allowlistService.ts 22-75) -/

/-- One entry of the parsed allowedEmails JSON array: either a JSON string
or a value of some other JSON type. -/
inductive JsonEntry where
  | str (s : String)
  | nonString
deriving DecidableEq, Repr

/-- The JS display of an entry (template-literal interpolation) as far as
the embedded messages need it. -/
def JsonEntry.display : JsonEntry → String
  | .str s => s
  | .nonString => "[object]"

/-- A fetched-and-parsed policy document.  A none field models a field
that is absent or has the wrong JSON type; googleClientId and version
additionally carry the empty string for the JS-falsy present-but-empty
case. -/
structure PolicyDoc where
  googleClientId : Option String
  allowedEmails : Option (List JsonEntry)
  version : Option String
deriving DecidableEq, Repr

/-- A parsed JSON response body: either a JSON object (a PolicyDoc) or a
non-object value. -/
inductive ParsedJson where
  | obj (doc : PolicyDoc)
  | notObject
deriving DecidableEq, Repr

/-- AllowlistService.validateConfig (lines 52-75): the structural checks in
source order, returning the message of the thrown Error on violation. -/
def validateConfig (json : ParsedJson) : Except String Unit :=
  match json with
  | .notObject => .error "設定ファイルの形式が無効です"
  | .obj doc =>
    match doc.googleClientId with
    | none => .error "googleClientId が設定されていないか、無効な形式です"
    | some cid =>
      if cid = "" then .error "googleClientId が設定されていないか、無効な形式です"
      else
        match doc.allowedEmails with
        | none => .error "allowedEmails が配列ではありません"
        | some entries =>
          match doc.version with
          | none => .error "version が設定されていないか、無効な形式です"
          | some ver =>
            if ver = "" then .error "version が設定されていないか、無効な形式です"
            else
              match entries.find? (fun e =>
                  match e with
                  | .str s => !isValidEmail s
                  | .nonString => true) with
              | some bad =>
                .error ("無効なメールアドレスが含まれています: " ++ bad.display)
              | none => .ok ()

/-- The validation step of AllowlistService.loadConfig (lines 30-44),
given a fetched and JSON-parsed document: a validation failure is caught
and rethrown as a CONFIG_ERROR AuthError carrying the validation message,
with retryable true. -/
def loadConfigValidate (json : ParsedJson) : Except AuthError PolicyDoc :=
  match validateConfig json with
  | .error msg => .error ⟨.CONFIG_ERROR, msg, true⟩
  | .ok _ =>
    match json with
    | .obj doc => .ok doc
    | .notObject => .error ⟨.CONFIG_ERROR, "設定ファイルの形式が無効です", true⟩

/-! ## ErrorHandlingService (services/errorHandlingService.ts) -/

/-- A raw JavaScript failure value as the classifier distinguishes them:
a value already conforming to the AuthError shape, an Error instance
(with name and message), a plain string, or anything else. -/
inductive RawJsError where
  | authShaped (e : AuthError)
  | jsError (name : String) (message : String)
  | strVal (s : String)
  | otherVal
deriving DecidableEq, Repr

/-- Does a list of characters occur contiguously inside another?  Models
JS String.prototype.includes. -/
def listHasInfix (pat : List Char) : List Char → Bool
  | [] => pat.isEmpty
  | x :: xs => startsWith pat (x :: xs) || listHasInfix pat xs
where
  /-- Does the second list start with the first? -/
  startsWith : List Char → List Char → Bool
    | [], _ => true
    | _ :: _, [] => false
    | p :: ps, y :: ys => p = y && startsWith ps ys

/-- JS String.prototype.includes on strings. -/
def strIncludes (s pat : String) : Bool :=
  listHasInfix pat.data s.data

/-- ErrorHandlingService.isNetworkError (lines 812-825) applied to an
Error instance with the given name and message. -/
def isNetworkErrorCheck (name message : String) : Bool :=
  let m := jsToLower message
  strIncludes m "network" || strIncludes m "fetch" ||
  strIncludes m "timeout" || strIncludes m "connection" ||
  name = "NetworkError" || name = "TimeoutError"

/-- ErrorHandlingService.createGenericError (lines 843-876): guess the
error type from the message of an Error instance. -/
def createGenericError (message : String) : AuthError :=
  let m := jsToLower message
  if strIncludes m "token" && strIncludes m "expired" then
    ⟨.TOKEN_EXPIRED, message, true⟩
  else if strIncludes m "access" && strIncludes m "denied" then
    ⟨.ACCESS_DENIED, message, false⟩
  else if strIncludes m "config" || strIncludes m "client_id" then
    ⟨.CONFIG_ERROR, message, false⟩
  else
    ⟨.OAUTH_FAILED, message, true⟩

/-- ErrorHandlingService.handleError (lines 632-651): pass through
AuthError-shaped values; classify Error instances as network errors or by
message heuristics; wrap strings and unknown values as OAUTH_FAILED. -/
def handleError (error : RawJsError) : AuthError :=
  match error with
  | .authShaped e => e
  | .jsError name message =>
    if isNetworkErrorCheck name message then ⟨.NETWORK_ERROR, message, true⟩
    else createGenericError message
  | .strVal s => ⟨.OAUTH_FAILED, s, true⟩
  | .otherVal => ⟨.OAUTH_FAILED, "予期しないエラーが発生しました", true⟩

/-- Error severity levels returned by getErrorSeverity. -/
inductive Severity where
  | low
  | medium
  | high
  | critical
deriving DecidableEq, Repr

/-- ErrorHandlingService.getErrorSeverity (lines 772-792). -/
def getErrorSeverity (error : AuthError) : Severity :=
  match error.type with
  | .CONFIG_ERROR => .critical
  | .ACCESS_DENIED => .high
  | .TOKEN_EXPIRED => .medium
  | .NETWORK_ERROR => .medium
  | .OAUTH_FAILED => .low

/-- RetryConfig from errorHandlingService.ts. -/
structure RetryConfig where
  maxRetries : Nat
  delay : Nat
  backoffMultiplier : Nat
  maxDelay : Nat
deriving DecidableEq, Repr

/-- ErrorHandlingResult from errorHandlingService.ts. -/
structure ErrorHandlingResult (α : Type) where
  success : Bool
  data : Option α
  error : Option AuthError
  retryCount : Nat
deriving DecidableEq, Repr

/-- The outcome of one attempt of an asynchronous operation run under the
timeout guard: a value, a thrown raw error, or exceeding the configured
network timeout. -/
inductive AttemptOutcome (α : Type) where
  | ok (a : α)
  | raise (e : RawJsError)
  | timeout
deriving DecidableEq, Repr

/-- The message of the Error rejected by
ErrorHandlingService.createTimeoutPromise (lines 892-898). -/
def timeoutMessage (timeoutMs : Nat) : String :=
  "操作がタイムアウトしました (" ++ toString timeoutMs ++ "ms)"

/-- ErrorHandlingService.executeWithTimeout (lines 717-725): race the
operation against the timeout promise; a timeout surfaces as a thrown
Error carrying timeoutMessage. -/
def executeWithTimeout (timeoutMs : Nat) (outcome : AttemptOutcome α) :
    Except RawJsError α :=
  match outcome with
  | .ok a => .ok a
  | .raise e => .error e
  | .timeout => .error (.jsError "Error" (timeoutMessage timeoutMs))

/-- The result of a retry run, with a ghost count of how many times the
wrapped operation was invoked. -/
structure RetryOutcome (α : Type) where
  result : ErrorHandlingResult α
  executions : Nat
deriving DecidableEq, Repr

/-- The attempt loop of ErrorHandlingService.executeWithRetry (lines
670-701).  attempt is the current loop index; remaining is
maxRetries - attempt, so remaining = 0 exactly when attempt equals
config.maxRetries, where the loop breaks on any failure regardless of
retryability (in the source the break condition is a short-circuit
disjunction of non-retryability and attempt = maxRetries).  The backoff
delay before a retry only suspends and does not affect the returned
value, so it is not represented. -/
def executeWithRetryGo (netTimeoutMs : Nat) (op : Nat → AttemptOutcome α) :
    Nat → Nat → RetryOutcome α
  | attempt, 0 =>
    match executeWithTimeout netTimeoutMs (op attempt) with
    | .ok a => ⟨⟨true, some a, none, attempt⟩, 1⟩
    | .error e => ⟨⟨false, none, some (handleError e), attempt⟩, 1⟩
  | attempt, r + 1 =>
    match executeWithTimeout netTimeoutMs (op attempt) with
    | .ok a => ⟨⟨true, some a, none, attempt⟩, 1⟩
    | .error e =>
      if (handleError e).retryable then
        let rest := executeWithRetryGo netTimeoutMs op (attempt + 1) r
        ⟨rest.result, rest.executions + 1⟩
      else
        ⟨⟨false, none, some (handleError e), attempt⟩, 1⟩

/-- ErrorHandlingService.executeWithRetry (lines 661-708): run the
operation for at most config.maxRetries + 1 attempts, each wrapped in
executeWithTimeout with the service-level networkTimeoutMs; stop
immediately on a non-retryable classified error. -/
def executeWithRetry (netTimeoutMs : Nat) (config : RetryConfig)
    (op : Nat → AttemptOutcome α) : RetryOutcome α :=
  executeWithRetryGo netTimeoutMs op 0 config.maxRetries

/-! ## GoogleAuthService (src/services/googleAuthService.ts) -/

/-- JS String.prototype.split applied with a dot separator, on character
lists (structural, so that concrete credentials evaluate). -/
def splitOnDot : List Char → List (List Char)
  | [] => [[]]
  | c :: rest =>
    if c = '.' then [] :: splitOnDot rest
    else
      match splitOnDot rest with
      | h :: t => (c :: h) :: t
      | [] => [[c]]

/-- GoogleAuthService.decodeJWT (lines 213-226).  The token is split on
dots and must have exactly three segments; the decoding of the middle
segment (base64url plus JSON.parse, atob in the source) is abstracted as
the parsePayload parameter, returning none on any decode or parse
failure.  Every failure inside the method is caught and rethrown with the
single decode-failure message. -/
def decodeJWT (parsePayload : String → Option GoogleJWTPayload)
    (token : String) : Except String GoogleJWTPayload :=
  let parts := splitOnDot token.data
  if parts.length ≠ 3 then
    .error "JWT トークンのデコードに失敗しました"
  else
    match parsePayload ⟨parts.getD 1 []⟩ with
    | some payload => .ok payload
    | none => .error "JWT トークンのデコードに失敗しました"

/-- Outcome of GoogleAuthService.handleCredentialResponse, with ghost
records of what was written to localStorage: savedTokens and savedUser
record the arguments of the saveTokens / saveUserInfo calls, or none when
the call was never reached. -/
structure CredentialOutcome where
  result : LoginResult
  savedTokens : Option GoogleTokenInfo
  savedUser : Option User
deriving DecidableEq, Repr

/-- GoogleAuthService.handleCredentialResponse (lines 148-206), for a
service whose AllowlistService already holds the loaded config.  The
credential argument is none when the provider response carried no
credential field.  Storage writes are assumed to succeed (their failure
path only changes the error message, not the persistence facts the
claims are about). -/
def handleCredentialResponse (parsePayload : String → Option GoogleJWTPayload)
    (config : GoogleOAuthConfig) (credential : Option String) :
    CredentialOutcome :=
  match credential with
  | none =>
    { result := ⟨false, none,
        some (handleError (.jsError "Error" "認証情報が取得できませんでした"))⟩,
      savedTokens := none, savedUser := none }
  | some cred =>
    match decodeJWT parsePayload cred with
    | .error msg =>
      { result := ⟨false, none, some (handleError (.jsError "Error" msg))⟩,
        savedTokens := none, savedUser := none }
    | .ok userInfo =>
      let allowlistResult := checkEmailAllowed config userInfo.email
      if !allowlistResult.isAllowed then
        { result := ⟨false, none,
            some ⟨.ACCESS_DENIED,
              allowlistResult.reason.getD "アクセスが拒否されました", false⟩⟩,
          savedTokens := none, savedUser := none }
      else
        let tokenInfo : GoogleTokenInfo :=
          ⟨"", cred, 3600, none, "openid email profile", "Bearer"⟩
        let user : User :=
          ⟨userInfo.sub, userInfo.email, userInfo.name, userInfo.picture⟩
        { result := ⟨true, some user, none⟩,
          savedTokens := some tokenInfo, savedUser := some user }

/-- The token material present in localStorage under the service storage
keys (none models an absent key). -/
structure TokenStorage where
  accessToken : Option String
  idToken : Option String
  refreshToken : Option String
deriving DecidableEq, Repr

/-- GoogleAuthService.getTokens (lines 527-549): null without an id token,
otherwise the stored material with defaults filled in. -/
def getTokens (st : TokenStorage) : Option GoogleTokenInfo :=
  match st.idToken with
  | none => none
  | some idToken =>
    some ⟨st.accessToken.getD "", idToken, 3600, st.refreshToken,
      "openid email profile", "Bearer"⟩

/-- One attempt of the operation passed to executeWithRetry by
GoogleAuthService.refreshToken (lines 461-496), together with a ghost flag
recording whether the network (the token-endpoint fetch) was reached.
netOutcome abstracts the fetch plus token-save tail of the operation. -/
def refreshAttempt (st : TokenStorage) (netOutcome : AttemptOutcome Bool) :
    AttemptOutcome Bool × Bool :=
  match getTokens st with
  | none => (.raise (.jsError "Error" "リフレッシュトークンが見つかりません"), false)
  | some tokens =>
    match tokens.refresh_token with
    | none => (.raise (.jsError "Error" "リフレッシュトークンが見つかりません"), false)
    | some _ => (netOutcome, true)

/-- The result of GoogleAuthService.refreshToken: the boolean it returns,
whether any attempt reached the network, and how many times the retry
engine executed the operation.  The call site passes maxRetries 2 and
delay 1000; the service defaults supply backoffMultiplier 2, maxDelay
10000 and networkTimeoutMs 10000. -/
def refreshTokenRun (st : TokenStorage) (netOutcome : AttemptOutcome Bool) :
    Bool × Bool × Nat :=
  let attempt := refreshAttempt st netOutcome
  let run := executeWithRetry 10000 ⟨2, 1000, 2, 10000⟩ (fun _ => attempt.1)
  (run.result.success, attempt.2 && (run.executions ≠ 0), run.executions)

/-- The login-flow coordination state of GoogleAuthService: the
loginResolve resolver slot (holding the identifier of the pending login
call, none when empty), plus a ghost count of how many times the
interactive provider flow (window.google.accounts.id.prompt) was driven. -/
structure LoginFlowState where
  loginResolve : Option Nat
  promptCount : Nat
deriving DecidableEq, Repr

/-- The login-flow state before any login call. -/
def initialLoginFlow : LoginFlowState := ⟨none, 0⟩

/-- The synchronous start of GoogleAuthService.login (lines 238-243) for
call callId: store the call resolver in loginResolve (overwriting any
pending one) and drive the provider prompt. -/
def loginStart (callId : Nat) (st : LoginFlowState) : LoginFlowState :=
  { loginResolve := some callId, promptCount := st.promptCount + 1 }

/-! ## useAuth (src/hooks/useAuth.ts) -/

/-- AuthState from types/auth.ts. -/
structure AuthState where
  isAuthenticated : Bool
  user : Option User
  isLoading : Bool
  error : Option AuthError
deriving DecidableEq, Repr

/-- The initial authentication state (useAuth lines 13-18). -/
def initialAuthState : AuthState :=
  ⟨false, none, true, none⟩

/-- The partial update at the start of checkAuthStatus, login and logout:
isLoading true, error cleared, other fields kept. -/
def beginOperation (s : AuthState) : AuthState :=
  { s with isLoading := true, error := none }

/-- The update on a checkAuthStatus or login success carrying a user. -/
def finishAuthenticated (u : User) : AuthState :=
  ⟨true, some u, false, none⟩

/-- The update on a checkAuthStatus success with a null user. -/
def finishUnauthenticated : AuthState :=
  ⟨false, none, false, none⟩

/-- The update on a checkAuthStatus or login failure, carrying the retry
result error (which the source spreads in even when absent). -/
def finishFailed (e : Option AuthError) : AuthState :=
  ⟨false, none, false, e⟩

/-- The final update of logout: local auth state is always cleared; a
fixed non-retryable NETWORK_ERROR is recorded when the logout operation
failed. -/
def finishLogout (opSucceeded : Bool) : AuthState :=
  ⟨false, none, false,
    if opSucceeded then none
    else some ⟨.NETWORK_ERROR,
      "ログアウト処理でエラーが発生しましたが、ローカル認証状態はクリアされました", false⟩⟩

/-- The authentication states reachable from the initial state through the
setAuthState updates performed by checkAuthStatus, login and logout
(useAuth lines 41-144).  Each constructor is one updateAuthState call
site, applied to a previously reachable state. -/
inductive ReachableAuthState : AuthState → Prop where
  | init : ReachableAuthState initialAuthState
  | begin_ (s : AuthState) : ReachableAuthState s →
      ReachableAuthState (beginOperation s)
  | authSuccess (s : AuthState) (u : User) : ReachableAuthState s →
      ReachableAuthState (finishAuthenticated u)
  | noUser (s : AuthState) : ReachableAuthState s →
      ReachableAuthState finishUnauthenticated
  | failed (s : AuthState) (e : Option AuthError) : ReachableAuthState s →
      ReachableAuthState (finishFailed e)
  | loggedOut (s : AuthState) (ok : Bool) : ReachableAuthState s →
      ReachableAuthState (finishLogout ok)

/-! ## Facts about the ASCII case mapping -/

theorem toNat_ofNat_of_valid (n : Nat) (h : n.isValidChar) :
    (Char.ofNat n).toNat = n := by
  simp only [Char.ofNat]
  rw [dif_pos h]
  rfl

theorem toLower_toNat_of_upper {c : Char} (h : c.toNat ≥ 65 ∧ c.toNat ≤ 90) :
    (Char.toLower c).toNat = c.toNat + 32 := by
  unfold Char.toLower
  rw [if_pos h]
  exact toNat_ofNat_of_valid _ (Or.inl (by omega))

theorem toLower_eq_self_of_not_upper {c : Char}
    (h : ¬(c.toNat ≥ 65 ∧ c.toNat ≤ 90)) : Char.toLower c = c := by
  unfold Char.toLower
  rw [if_neg h]

theorem char_eq_of_toNat_eq {c d : Char} (h : c.toNat = d.toNat) : c = d := by
  rw [← Char.ofNat_toNat c, h, Char.ofNat_toNat]

/-- For a character k that is neither an ASCII capital nor an ASCII small
letter, toLower c = k holds exactly for c = k. -/
theorem toLower_eq_special {k : Char}
    (hk1 : ¬(k.toNat ≥ 65 ∧ k.toNat ≤ 90))
    (hk2 : ¬(97 ≤ k.toNat ∧ k.toNat ≤ 122)) (c : Char) :
    Char.toLower c = k ↔ c = k := by
  constructor
  · intro h
    by_cases hc : c.toNat ≥ 65 ∧ c.toNat ≤ 90
    · exfalso
      have h3 := toLower_toNat_of_upper hc
      rw [h] at h3
      exact hk2 ⟨by omega, by omega⟩
    · rw [← toLower_eq_self_of_not_upper hc]
      exact h
  · intro h
    subst h
    exact toLower_eq_self_of_not_upper hk1

theorem toLower_at_iff (c : Char) : (Char.toLower c = '@') ↔ (c = '@') :=
  toLower_eq_special (by decide) (by decide) c

theorem toLower_dot_iff (c : Char) : (Char.toLower c = '.') ↔ (c = '.') :=
  toLower_eq_special (by decide) (by decide) c

/-- Every character the embedded whitespace class accepts lies outside the
ASCII letter range. -/
theorem jsWS_toNat_bounds {c : Char} (h : jsIsWhitespace c = true) :
    ¬(65 ≤ c.toNat ∧ c.toNat ≤ 122) := by
  intro hc
  simp only [jsIsWhitespace, Bool.or_eq_true, decide_eq_true_eq,
    Bool.and_eq_true] at h
  omega

theorem not_jsWS_of_toNat {c : Char} (h1 : 65 ≤ c.toNat)
    (h2 : c.toNat ≤ 122) : jsIsWhitespace c = false := by
  cases hw : jsIsWhitespace c with
  | false => rfl
  | true => exact absurd ⟨h1, h2⟩ (jsWS_toNat_bounds hw)

theorem jsWS_toLower (c : Char) :
    jsIsWhitespace (Char.toLower c) = jsIsWhitespace c := by
  by_cases hc : c.toNat ≥ 65 ∧ c.toNat ≤ 90
  · have h3 := toLower_toNat_of_upper hc
    rw [not_jsWS_of_toNat (c := Char.toLower c) (by omega) (by omega),
      not_jsWS_of_toNat (by omega) (by omega)]
  · rw [toLower_eq_self_of_not_upper hc]

theorem emailCharOk_toLower (c : Char) :
    emailCharOk (Char.toLower c) = emailCharOk c := by
  simp only [emailCharOk, jsWS_toLower]
  have := toLower_at_iff c
  by_cases h : c = '@'
  · simp [h, this.mpr h]
  · have : ¬(Char.toLower c = '@') := fun hh => h (toLower_at_iff c |>.mp hh)
    simp [h, this]

/-! ## Lowercasing commutes with the pieces of isValidEmail -/

theorem decide_toLower_dot (c : Char) :
    (decide (Char.toLower c = '.')) = (decide (c = '.')) := by
  rw [decide_eq_decide]
  exact toLower_dot_iff c

theorem decide_toLower_at (c : Char) :
    (decide (Char.toLower c = '@')) = (decide (c = '@')) := by
  rw [decide_eq_decide]
  exact toLower_at_iff c

theorem splitFirst_map_toLower (l : List Char) :
    splitFirst '@' (l.map Char.toLower) =
      (splitFirst '@' l).map
        (fun p => (p.1.map Char.toLower, p.2.map Char.toLower)) := by
  induction l with
  | nil => rfl
  | cons x xs ih =>
    simp only [List.map_cons, splitFirst]
    by_cases hx : x = '@'
    · rw [if_pos (toLower_at_iff x |>.mpr hx), if_pos hx]
      rfl
    · rw [if_neg (fun hh => hx (toLower_at_iff x |>.mp hh)), if_neg hx, ih]
      cases splitFirst '@' xs with
      | none => rfl
      | some p => rfl

theorem all_emailCharOk_map_toLower (l : List Char) :
    (l.map Char.toLower).all emailCharOk = l.all emailCharOk := by
  simp only [List.all_map, Function.comp_def, emailCharOk_toLower]

theorem dotBeforeLast_map_toLower (l : List Char) :
    dotBeforeLast (l.map Char.toLower) = dotBeforeLast l := by
  induction l with
  | nil => rfl
  | cons x xs ih =>
    cases xs with
    | nil => rfl
    | cons y rest =>
      simp only [List.map_cons, dotBeforeLast] at ih ⊢
      rw [ih, decide_toLower_dot]

theorem hasInnerDot_map_toLower (l : List Char) :
    hasInnerDot (l.map Char.toLower) = hasInnerDot l := by
  cases l with
  | nil => rfl
  | cons x xs => exact dotBeforeLast_map_toLower xs

theorem containsDoubleDot_map_toLower (l : List Char) :
    containsDoubleDot (l.map Char.toLower) = containsDoubleDot l := by
  induction l with
  | nil => rfl
  | cons x xs ih =>
    cases xs with
    | nil => rfl
    | cons y rest =>
      simp only [List.map_cons, containsDoubleDot] at ih ⊢
      rw [ih, decide_toLower_dot, decide_toLower_dot]

theorem isEmpty_map_toLower (l : List Char) :
    (l.map Char.toLower).isEmpty = l.isEmpty := by
  cases l with
  | nil => rfl
  | cons x xs => rfl

theorem head_eq_dot_map_toLower (l : List Char) :
    (decide ((l.map Char.toLower).head? = some '.')) =
      (decide (l.head? = some '.')) := by
  cases l with
  | nil => rfl
  | cons x xs =>
    simp only [List.map_cons, List.head?_cons, Option.some.injEq]
    exact decide_toLower_dot x

theorem getLast_eq_dot_map_toLower (l : List Char) :
    (decide ((l.map Char.toLower).getLast? = some '.')) =
      (decide (l.getLast? = some '.')) := by
  rw [List.getLast?_map]
  cases hl : l.getLast? with
  | none => rfl
  | some x =>
    rw [show Option.map Char.toLower (some x) = some (Char.toLower x) from rfl]
    simp only [Option.some.injEq]
    exact decide_toLower_dot x

theorem emailRegexTest_map_toLower (l : List Char) :
    emailRegexTest (l.map Char.toLower) = emailRegexTest l := by
  simp only [emailRegexTest, splitFirst_map_toLower]
  cases h : splitFirst '@' l with
  | none => rfl
  | some p =>
    obtain ⟨loc, domain⟩ := p
    rw [show Option.map
        (fun p : List Char × List Char =>
          (p.1.map Char.toLower, p.2.map Char.toLower)) (some (loc, domain)) =
        some (loc.map Char.toLower, domain.map Char.toLower) from rfl]
    simp only
    rw [all_emailCharOk_map_toLower, all_emailCharOk_map_toLower,
      hasInnerDot_map_toLower, isEmpty_map_toLower]

theorem isValidEmail_jsToLower (s : String) :
    isValidEmail (jsToLower s) = isValidEmail s := by
  have hdata : (jsToLower s).data = s.data.map Char.toLower := rfl
  simp only [isValidEmail, hdata, emailRegexTest_map_toLower,
    containsDoubleDot_map_toLower, splitFirst_map_toLower]
  cases h : splitFirst '@' s.data with
  | none => rfl
  | some p =>
    obtain ⟨loc, domain⟩ := p
    rw [show Option.map
        (fun p : List Char × List Char =>
          (p.1.map Char.toLower, p.2.map Char.toLower)) (some (loc, domain)) =
        some (loc.map Char.toLower, domain.map Char.toLower) from rfl]
    simp only
    rw [head_eq_dot_map_toLower, getLast_eq_dot_map_toLower]

/-- The ASCII case mapping is idempotent. -/
theorem toLower_toLower (c : Char) :
    Char.toLower (Char.toLower c) = Char.toLower c := by
  by_cases hc : c.toNat ≥ 65 ∧ c.toNat ≤ 90
  · have h3 := toLower_toNat_of_upper hc
    exact toLower_eq_self_of_not_upper (by omega)
  · rw [toLower_eq_self_of_not_upper hc]
    exact toLower_eq_self_of_not_upper hc

theorem jsToLower_idem (s : String) :
    jsToLower (jsToLower s) = jsToLower s := by
  simp only [jsToLower, List.map_map]
  congr 1
  exact List.map_congr_left (fun c _ => toLower_toLower c)

/-! ## checkEmailAllowed facts -/

theorem bool_eq_of_true_iff {a b : Bool} (h : a = true ↔ b = true) : a = b := by
  cases a <;> cases b <;> simp_all

theorem checkEmailAllowed_isAllowed_congr (config : GoogleOAuthConfig)
    (e1 e2 : String) (h : jsToLower e1 = jsToLower e2) :
    (checkEmailAllowed config e1).isAllowed =
      (checkEmailAllowed config e2).isAllowed := by
  have hv : isValidEmail e1 = isValidEmail e2 := by
    rw [← isValidEmail_jsToLower e1, h, isValidEmail_jsToLower]
  unfold checkEmailAllowed
  rw [hv, h]
  cases hb : isValidEmail e2
  · simp
  · simp

theorem checkEmailAllowed_isAllowed_iff (config : GoogleOAuthConfig)
    (email : String) :
    (checkEmailAllowed config email).isAllowed = true ↔
      (isValidEmail email = true ∧
        ∃ a ∈ config.allowedEmails, jsToLower a = jsToLower email) := by
  unfold checkEmailAllowed
  cases hb : isValidEmail email
  · simp [hb]
  · simp [hb, List.any_eq_true]

/-! ## Structure of splitFirst -/

theorem splitFirst_eq_some {c : Char} {l a b : List Char}
    (h : splitFirst c l = some (a, b)) : l = a ++ c :: b ∧ c ∉ a := by
  induction l generalizing a b with
  | nil => simp [splitFirst] at h
  | cons x xs ih =>
    rw [splitFirst] at h
    by_cases hx : x = c
    · rw [if_pos hx] at h
      injection h with h1
      injection h1 with h2 h3
      subst h2
      subst h3
      subst hx
      simp
    · rw [if_neg hx] at h
      cases hsx : splitFirst c xs with
      | none =>
        rw [hsx] at h
        cases h
      | some p =>
        obtain ⟨a2, b2⟩ := p
        rw [hsx] at h
        injection h with h1
        injection h1 with h2 h3
        subst h2
        subst h3
        obtain ⟨hl2, hna⟩ := ih hsx
        subst hl2
        refine ⟨rfl, ?_⟩
        intro hm
        rcases List.mem_cons.mp hm with hm | hm
        · exact hx hm.symm
        · exact hna hm

theorem splitFirst_eq_none {c : Char} {l : List Char} :
    splitFirst c l = none ↔ c ∉ l := by
  induction l with
  | nil => simp [splitFirst]
  | cons x xs ih =>
    rw [splitFirst]
    by_cases hx : x = c
    · subst hx
      simp
    · rw [if_neg hx]
      have hcx : ¬c = x := fun hh => hx hh.symm
      cases hsx : splitFirst c xs with
      | none =>
        have hnx : c ∉ xs := ih.mp hsx
        simp [hsx, hnx, hcx]
      | some p =>
        obtain ⟨a2, b2⟩ := p
        have hmem : c ∈ xs := by
          by_contra hc
          rw [ih.mpr hc] at hsx
          cases hsx
        simp [hsx, hmem]

/-! ## The characterization of isValidEmail used by the amended C8 claim -/

/-- The conservative email-syntax check in the words of the spec sentence:
a single at sign, non-empty local and domain parts, and no leading,
trailing or consecutive dots in the domain. -/
def specEmailCheck (email : String) : Bool :=
  let l := email.data
  (l.count '@' = 1) &&
  (match splitFirst '@' l with
   | none => false
   | some (loc, domain) =>
     !loc.isEmpty && !domain.isEmpty &&
     !(domain.head? = some '.') && !(domain.getLast? = some '.') &&
     !containsDoubleDot domain)

/-- The check the source actually performs, stated independently of the
regex-matching order: a single at sign, no ECMAScript whitespace anywhere,
a non-empty local part, a dot inside the domain that is neither its first
nor its last character, no consecutive dots anywhere in the address, and
a domain that neither starts nor ends with a dot. -/
def amendedEmailCheck (email : String) : Bool :=
  let l := email.data
  (l.count '@' = 1) && l.all (fun c => !jsIsWhitespace c) &&
  (match splitFirst '@' l with
   | none => false
   | some (loc, domain) =>
     !loc.isEmpty && hasInnerDot domain &&
     !containsDoubleDot l &&
     !(domain.head? = some '.') && !(domain.getLast? = some '.'))

theorem emailCharOk_parts {x : Char} (h : emailCharOk x = true) :
    jsIsWhitespace x = false ∧ x ≠ '@' := by
  unfold emailCharOk at h
  rw [Bool.and_eq_true] at h
  obtain ⟨h1, h2⟩ := h
  refine ⟨?_, of_decide_eq_true h2⟩
  cases hw : jsIsWhitespace x
  · rfl
  · rw [hw] at h1
    cases h1

theorem emailCharOk_of {x : Char} (h1 : jsIsWhitespace x = false)
    (h2 : x ≠ '@') : emailCharOk x = true := by
  unfold emailCharOk
  rw [h1]
  simp [h2]

theorem chars_iff {loc domain l : List Char} (hl : l = loc ++ '@' :: domain)
    (hnloc : '@' ∉ loc) :
    (loc.all emailCharOk = true ∧ domain.all emailCharOk = true) ↔
      ((decide (l.count '@' = 1)) = true ∧
        (l.all fun c => !jsIsWhitespace c) = true) := by
  subst hl
  constructor
  · rintro ⟨hb, hc⟩
    simp only [List.all_eq_true] at hb hc
    have hnd : '@' ∉ domain := fun hm => absurd (hc _ hm) (by decide)
    constructor
    · simp only [decide_eq_true_eq]
      rw [List.count_append, List.count_cons_self,
        List.count_eq_zero.mpr hnloc, List.count_eq_zero.mpr hnd]
    · simp only [List.all_eq_true]
      intro x hx
      rcases List.mem_append.mp hx with hx | hx
      · rw [(emailCharOk_parts (hb _ hx)).1]
        rfl
      · rcases List.mem_cons.mp hx with rfl | hx
        · decide
        · rw [(emailCharOk_parts (hc _ hx)).1]
          rfl
  · rintro ⟨hg, hh⟩
    have hg2 := of_decide_eq_true hg
    simp only [List.all_eq_true] at hh
    have hws : ∀ x, x ∈ loc ++ '@' :: domain → jsIsWhitespace x = false := by
      intro x hx
      have := hh x hx
      cases hw : jsIsWhitespace x
      · rfl
      · rw [hw] at this
        cases this
    have hnd : '@' ∉ domain := by
      intro hdm
      rw [List.count_append, List.count_cons_self,
        List.count_eq_zero.mpr hnloc] at hg2
      have h0 : domain.count '@' = 0 := by omega
      exact absurd hdm (List.count_eq_zero.mp h0)
    constructor
    · simp only [List.all_eq_true]
      intro x hx
      refine emailCharOk_of (hws x (by simp [hx])) ?_
      rintro rfl
      exact hnloc hx
    · simp only [List.all_eq_true]
      intro x hx
      refine emailCharOk_of (hws x (by simp [hx])) ?_
      rintro rfl
      exact hnd hx

theorem isValidEmail_eq_conj (email : String) :
    isValidEmail email =
      (emailRegexTest email.data && !containsDoubleDot email.data &&
        (match splitFirst '@' email.data with
         | some (_, domain) =>
           !(domain.head? = some '.') && !(domain.getLast? = some '.')
         | none => false)) := by
  unfold isValidEmail
  cases hre : emailRegexTest email.data <;>
    cases hdd : containsDoubleDot email.data <;> simp [hre, hdd]

theorem isValidEmail_eq_amended (email : String) :
    isValidEmail email = amendedEmailCheck email := by
  apply bool_eq_of_true_iff
  rw [isValidEmail_eq_conj]
  unfold amendedEmailCheck
  cases hs : splitFirst '@' email.data with
  | none => simp [emailRegexTest, hs]
  | some p =>
    obtain ⟨loc, domain⟩ := p
    obtain ⟨hl, hnloc⟩ := splitFirst_eq_some hs
    have hBC := chars_iff hl hnloc
    simp only [emailRegexTest, hs, Bool.and_eq_true]
    tauto

/-! ## Behaviour of the retry loop -/

theorem executeWithRetryGo_executions_le {α : Type} (netT : Nat)
    (op : Nat → AttemptOutcome α) :
    ∀ remaining attempt,
      (executeWithRetryGo netT op attempt remaining).executions ≤
        remaining + 1 := by
  intro remaining
  induction remaining with
  | zero =>
    intro attempt
    cases h : executeWithTimeout netT (op attempt) <;>
      simp [executeWithRetryGo, h]
  | succ r ih =>
    intro attempt
    cases h : executeWithTimeout netT (op attempt) with
    | ok a => simp [executeWithRetryGo, h]
    | error e =>
      cases hr : (handleError e).retryable with
      | false => simp [executeWithRetryGo, h, hr]
      | true =>
        have hih := ih (attempt + 1)
        simp only [executeWithRetryGo, h, hr, if_true]
        omega

theorem executeWithRetryGo_const_fail {α : Type} (netT : Nat)
    (op : Nat → AttemptOutcome α) (e : RawJsError)
    (hop : ∀ i, executeWithTimeout netT (op i) = Except.error e)
    (hr : (handleError e).retryable = true) :
    ∀ remaining attempt,
      executeWithRetryGo netT op attempt remaining =
        ⟨⟨false, none, some (handleError e), attempt + remaining⟩,
          remaining + 1⟩ := by
  intro remaining
  induction remaining with
  | zero =>
    intro attempt
    simp [executeWithRetryGo, hop attempt]
  | succ r ih =>
    intro attempt
    simp only [executeWithRetryGo, hop attempt, hr, if_true, ih (attempt + 1)]
    rw [show attempt + 1 + r = attempt + (r + 1) from by omega]

theorem executeWithRetry_nonretryable {α : Type} (netT : Nat)
    (cfg : RetryConfig) (op : Nat → AttemptOutcome α) (e : RawJsError)
    (h0 : executeWithTimeout netT (op 0) = Except.error e)
    (hr : (handleError e).retryable = false) :
    executeWithRetry netT cfg op =
      ⟨⟨false, none, some (handleError e), 0⟩, 1⟩ := by
  unfold executeWithRetry
  cases cfg.maxRetries with
  | zero => simp [executeWithRetryGo, h0]
  | succ r => simp [executeWithRetryGo, h0, hr]

theorem executeWithRetry_const_fail {α : Type} (netT : Nat)
    (cfg : RetryConfig) (op : Nat → AttemptOutcome α) (e : RawJsError)
    (hop : ∀ i, executeWithTimeout netT (op i) = Except.error e)
    (hr : (handleError e).retryable = true) :
    executeWithRetry netT cfg op =
      ⟨⟨false, none, some (handleError e), cfg.maxRetries⟩,
        cfg.maxRetries + 1⟩ := by
  unfold executeWithRetry
  rw [executeWithRetryGo_const_fail netT op e hop hr cfg.maxRetries 0,
    Nat.zero_add]

/-! ## Spec-side characterization of validateConfig -/

/-- The structural-validity predicate of the amended C8 claim, stated
independently of the validation order: client id present and non-empty,
allowedEmails an array whose entries are strings passing the (amended)
email-syntax check, version present and non-empty. -/
def structurallyValidDoc (json : ParsedJson) : Bool :=
  match json with
  | .notObject => false
  | .obj doc =>
    (match doc.googleClientId with
     | some cid => cid ≠ ""
     | none => false) &&
    (match doc.allowedEmails with
     | some entries =>
       entries.all (fun e =>
         match e with
         | .str s => amendedEmailCheck s
         | .nonString => false)
     | none => false) &&
    (match doc.version with
     | some v => v ≠ ""
     | none => false)

/-- The messages validateConfig can produce for a given document, each
naming the violated field (or, for the email message, the offending
entry). -/
def validationMessages (json : ParsedJson) : List String :=
  ["設定ファイルの形式が無効です",
   "googleClientId が設定されていないか、無効な形式です",
   "allowedEmails が配列ではありません",
   "version が設定されていないか、無効な形式です"] ++
  (match json with
   | .obj doc =>
     (doc.allowedEmails.getD []).map
       (fun e => "無効なメールアドレスが含まれています: " ++ e.display)
   | .notObject => [])

/-- The predicate validateConfig uses to search for an invalid entry. -/
def badEntry (e : JsonEntry) : Bool :=
  match e with
  | .str s => !isValidEmail s
  | .nonString => true

/-- The entry-level predicate of structurallyValidDoc is the negation of
the search predicate of validateConfig. -/
theorem goodEntry_eq_not_bad (e : JsonEntry) :
    (match e with
     | JsonEntry.str s => amendedEmailCheck s
     | JsonEntry.nonString => false) = !(badEntry e) := by
  cases e with
  | str s =>
    simp only [badEntry, Bool.not_not]
    exact (isValidEmail_eq_amended s).symm
  | nonString => rfl

theorem validateConfig_ok_iff (json : ParsedJson) :
    validateConfig json = Except.ok () ↔ structurallyValidDoc json = true := by
  have hlam : (fun e => match e with
      | JsonEntry.str s => !isValidEmail s
      | JsonEntry.nonString => true) = badEntry := rfl
  cases json with
  | notObject => simp [validateConfig, structurallyValidDoc]
  | obj doc =>
    obtain ⟨gcid, gmails, gver⟩ := doc
    cases gcid with
    | none => simp [validateConfig, structurallyValidDoc]
    | some cid =>
      by_cases hc : cid = ""
      · simp [validateConfig, structurallyValidDoc, hc]
      · cases gmails with
        | none => simp [validateConfig, structurallyValidDoc, hc]
        | some entries =>
          cases gver with
          | none => simp [validateConfig, structurallyValidDoc, hc]
          | some ver =>
            by_cases hv : ver = ""
            · simp [validateConfig, structurallyValidDoc, hc, hv]
            · cases hf : entries.find? badEntry with
              | some bad =>
                have hbadmem := List.mem_of_find?_eq_some hf
                have hbadp : badEntry bad = true := List.find?_some hf
                simp only [validateConfig, structurallyValidDoc, hlam, hf,
                  if_neg hc, if_neg hv]
                apply iff_of_false
                · simp
                · intro hall
                  rw [Bool.and_eq_true, Bool.and_eq_true] at hall
                  have h2 := hall.1.2
                  rw [List.all_eq_true] at h2
                  have h3 := h2 _ hbadmem
                  rw [goodEntry_eq_not_bad, hbadp] at h3
                  cases h3
              | none =>
                have hgood := List.find?_eq_none.mp hf
                simp only [validateConfig, structurallyValidDoc, hlam, hf,
                  if_neg hc, if_neg hv]
                rw [true_iff]
                rw [Bool.and_eq_true, Bool.and_eq_true]
                refine ⟨⟨by simp [hc], ?_⟩, by simp [hv]⟩
                rw [List.all_eq_true]
                intro e he
                rw [goodEntry_eq_not_bad]
                cases hb : badEntry e with
                | false => rfl
                | true => exact absurd hb (by simpa using hgood e he)

theorem validateConfig_error_mem {json : ParsedJson} {msg : String}
    (h : validateConfig json = Except.error msg) :
    msg ∈ validationMessages json := by
  have hlam : (fun e => match e with
      | JsonEntry.str s => !isValidEmail s
      | JsonEntry.nonString => true) = badEntry := rfl
  cases json with
  | notObject =>
    simp only [validateConfig] at h
    injection h with h1
    subst h1
    simp [validationMessages]
  | obj doc =>
    obtain ⟨gcid, gmails, gver⟩ := doc
    cases gcid with
    | none =>
      simp only [validateConfig] at h
      injection h with h1
      subst h1
      simp [validationMessages]
    | some cid =>
      by_cases hc : cid = ""
      · simp only [validateConfig, if_pos hc] at h
        injection h with h1
        subst h1
        simp [validationMessages]
      · cases gmails with
        | none =>
          simp only [validateConfig, if_neg hc] at h
          injection h with h1
          subst h1
          simp [validationMessages]
        | some entries =>
          cases gver with
          | none =>
            simp only [validateConfig, if_neg hc] at h
            injection h with h1
            subst h1
            simp [validationMessages]
          | some ver =>
            by_cases hv : ver = ""
            · simp only [validateConfig, if_neg hc, if_pos hv] at h
              injection h with h1
              subst h1
              simp [validationMessages]
            · cases hf : entries.find? badEntry with
              | some bad =>
                simp only [validateConfig, if_neg hc, if_neg hv, hlam, hf] at h
                injection h with h1
                subst h1
                have hbadmem := List.mem_of_find?_eq_some hf
                simp only [validationMessages, Option.getD_some,
                  List.mem_append, List.mem_map]
                right
                exact ⟨bad, hbadmem, rfl⟩
              | none =>
                simp only [validateConfig, if_neg hc, if_neg hv, hlam, hf] at h
                cases h

/-! ## Spec-side lookup tables used by the C6 claim -/

/-- The severity table of spec section 7, as a pure lookup on the kind. -/
def severityOfKind : AuthErrorType → Severity
  | .CONFIG_ERROR => .critical
  | .ACCESS_DENIED => .high
  | .TOKEN_EXPIRED => .medium
  | .NETWORK_ERROR => .medium
  | .OAUTH_FAILED => .low

/-- The kinds the spec table marks retryable. -/
def retryableKinds : List AuthErrorType :=
  [.OAUTH_FAILED, .NETWORK_ERROR, .TOKEN_EXPIRED]

/-! ## Claim theorems -/

/-- C1: whenever a provider credential decodes successfully but the decoded
email is rejected by the allowlist check, handleCredentialResponse returns
failure with an ACCESS_DENIED error carrying retryable = false and neither
the token set nor the user info is written to storage; and conversely a
storage write happens only when the credential decoded and the allowlist
check allowed the email. -/
theorem C1_allowlist_rejection_no_persist :
    (∀ (parse : String → Option GoogleJWTPayload) (config : GoogleOAuthConfig)
        (cred : String) (payload : GoogleJWTPayload),
        decodeJWT parse cred = Except.ok payload →
        (checkEmailAllowed config payload.email).isAllowed = false →
        (handleCredentialResponse parse config (some cred)).result.success
            = false ∧
        (∃ msg, (handleCredentialResponse parse config (some cred)).result.error
            = some ⟨AuthErrorType.ACCESS_DENIED, msg, false⟩) ∧
        (handleCredentialResponse parse config (some cred)).savedTokens
            = none ∧
        (handleCredentialResponse parse config (some cred)).savedUser
            = none) ∧
    (∀ (parse : String → Option GoogleJWTPayload) (config : GoogleOAuthConfig)
        (credential : Option String),
        ((handleCredentialResponse parse config credential).savedTokens.isSome ∨
         (handleCredentialResponse parse config credential).savedUser.isSome) →
        ∃ cred payload, credential = some cred ∧
          decodeJWT parse cred = Except.ok payload ∧
          (checkEmailAllowed config payload.email).isAllowed = true) := by
  constructor
  · intro parse config cred payload hdec hdeny
    simp only [handleCredentialResponse, hdec, hdeny, Bool.not_false, if_true]
    refine ⟨by simp, ⟨(checkEmailAllowed config payload.email).reason.getD
      "アクセスが拒否されました", by simp⟩, by simp, by simp⟩
  · intro parse config credential hsaved
    cases credential with
    | none => simp [handleCredentialResponse] at hsaved
    | some cred =>
      cases hdec : decodeJWT parse cred with
      | error m => simp [handleCredentialResponse, hdec] at hsaved
      | ok payload =>
        cases hallow : (checkEmailAllowed config payload.email).isAllowed with
        | false => simp [handleCredentialResponse, hdec, hallow] at hsaved
        | true => exact ⟨cred, payload, rfl, hdec, hallow⟩

/-- Witness for C1 at a concrete credential, decoder and policy. -/
theorem C1_witness :
    (handleCredentialResponse
        (fun _ => some ⟨"sub1", "user@y.com", "Name", none, 1000, 0⟩)
        ⟨"cid", ["user@x.com"], "1.0"⟩ (some "h.p.s")).savedTokens = none ∧
    (handleCredentialResponse
        (fun _ => some ⟨"sub1", "user@y.com", "Name", none, 1000, 0⟩)
        ⟨"cid", ["user@x.com"], "1.0"⟩ (some "h.p.s")).result.success
        = false := by
  have h := C1_allowlist_rejection_no_persist.1
    (fun _ => some ⟨"sub1", "user@y.com", "Name", none, 1000, 0⟩)
    ⟨"cid", ["user@x.com"], "1.0"⟩ "h.p.s"
    ⟨"sub1", "user@y.com", "Name", none, 1000, 0⟩ (by decide) (by decide)
  exact ⟨h.2.2.1, h.1⟩

/-- C2: with a loaded policy whose allowedEmails list is empty,
checkEmailAllowed reports isAllowed = false for every input email. -/
theorem C2_empty_allowlist_denies (config : GoogleOAuthConfig) (email : String)
    (h : config.allowedEmails = []) :
    (checkEmailAllowed config email).isAllowed = false := by
  unfold checkEmailAllowed
  cases hv : isValidEmail email
  · simp
  · simp [h]

/-- Witness for C2 with an empty policy and a syntactically valid email. -/
theorem C2_witness :
    isValidEmail "user@x.com" = true ∧
    (checkEmailAllowed ⟨"cid", [], "1.0"⟩ "user@x.com").isAllowed = false :=
  ⟨by decide, C2_empty_allowlist_denies ⟨"cid", [], "1.0"⟩ "user@x.com" rfl⟩

/-- C3: the allowed verdict of checkEmailAllowed is identical for input
emails that are equal up to letter case; membership holds exactly when the
input is syntactically valid and some listed address equals it after case
normalization (so no partial, prefix or wildcard matching); and in
particular USER@X.COM is allowed iff user@x.com is, when user@x.com is
listed. -/
theorem C3_case_insensitive_exact_match :
    (∀ (config : GoogleOAuthConfig) (e1 e2 : String),
        jsToLower e1 = jsToLower e2 →
        (checkEmailAllowed config e1).isAllowed =
          (checkEmailAllowed config e2).isAllowed) ∧
    (∀ (config : GoogleOAuthConfig) (email : String),
        (checkEmailAllowed config email).isAllowed = true ↔
          (isValidEmail email = true ∧
            ∃ a ∈ config.allowedEmails, jsToLower a = jsToLower email)) ∧
    ((checkEmailAllowed ⟨"cid", ["user@x.com"], "1.0"⟩ "USER@X.COM").isAllowed
        = true ↔
      (checkEmailAllowed ⟨"cid", ["user@x.com"], "1.0"⟩ "user@x.com").isAllowed
        = true) ∧
    (checkEmailAllowed ⟨"cid", ["user@x.com"], "1.0"⟩ "USER@X.COM").isAllowed
        = true :=
  ⟨checkEmailAllowed_isAllowed_congr, checkEmailAllowed_isAllowed_iff,
    by decide, by decide⟩

/-- Witness for C3 on a concrete case-variant pair. -/
theorem C3_witness :
    (checkEmailAllowed ⟨"cid", ["user@x.com"], "1.0"⟩ "UsEr@X.cOm").isAllowed =
      (checkEmailAllowed ⟨"cid", ["user@x.com"], "1.0"⟩ "user@x.com").isAllowed :=
  C3_case_insensitive_exact_match.1 ⟨"cid", ["user@x.com"], "1.0"⟩
    "UsEr@X.cOm" "user@x.com" (by decide)

/-- C4: executeWithRetry invokes the wrapped operation at most
maxRetries + 1 times; with maxRetries = 2 and an operation whose every
attempt fails with a retryable-classified error it executes the operation
exactly 3 times and reports retryCount = 2; and when the first failure is
classified non-retryable it stops after exactly 1 execution with
retryCount = 0. -/
theorem C4_retry_budget :
    (∀ (α : Type) (netT : Nat) (config : RetryConfig)
        (op : Nat → AttemptOutcome α),
        (executeWithRetry netT config op).executions ≤
          config.maxRetries + 1) ∧
    (∀ (α : Type) (netT : Nat) (config : RetryConfig)
        (op : Nat → AttemptOutcome α) (e : RawJsError),
        config.maxRetries = 2 →
        (∀ i, op i = AttemptOutcome.raise e) →
        (handleError e).retryable = true →
        (executeWithRetry netT config op).executions = 3 ∧
        (executeWithRetry netT config op).result.retryCount = 2 ∧
        (executeWithRetry netT config op).result.success = false) ∧
    (∀ (α : Type) (netT : Nat) (config : RetryConfig)
        (op : Nat → AttemptOutcome α) (e : RawJsError),
        op 0 = AttemptOutcome.raise e →
        (handleError e).retryable = false →
        (executeWithRetry netT config op).executions = 1 ∧
        (executeWithRetry netT config op).result.retryCount = 0 ∧
        (executeWithRetry netT config op).result.success = false) := by
  refine ⟨?_, ?_, ?_⟩
  · intro α netT config op
    exact executeWithRetryGo_executions_le netT op config.maxRetries 0
  · intro α netT config op e hm hop hr
    have hop2 : ∀ i, executeWithTimeout netT (op i) = Except.error e := by
      intro i
      rw [hop i]
      rfl
    rw [executeWithRetry_const_fail netT config op e hop2 hr, hm]
    exact ⟨rfl, rfl, rfl⟩
  · intro α netT config op e h0 hr
    have h02 : executeWithTimeout netT (op 0) = Except.error e := by
      rw [h0]
      rfl
    rw [executeWithRetry_nonretryable netT config op e h02 hr]
    exact ⟨rfl, rfl, rfl⟩

/-- Witness for C4 on a concrete always-failing retryable operation and a
concrete non-retryable one. -/
theorem C4_witness :
    ((executeWithRetry 10000 ⟨2, 100, 2, 10000⟩
        (fun _ => AttemptOutcome.raise (α := Bool)
          (RawJsError.jsError "Error" "Network error"))).executions = 3) ∧
    ((executeWithRetry 10000 ⟨2, 100, 2, 10000⟩
        (fun _ => AttemptOutcome.raise (α := Bool)
          (RawJsError.jsError "Error" "Access denied by server"))).executions
        = 1) := by
  constructor
  · exact (C4_retry_budget.2.1 Bool 10000 ⟨2, 100, 2, 10000⟩ _
      (RawJsError.jsError "Error" "Network error") rfl (fun i => rfl)
      (by decide)).1
  · exact (C4_retry_budget.2.2 Bool 10000 ⟨2, 100, 2, 10000⟩ _
      (RawJsError.jsError "Error" "Access denied by server") rfl
      (by decide)).1

/-- C5 counterexample: a timed-out attempt is classified as OAUTH_FAILED,
not NETWORK_ERROR, because the Japanese timeout message contains none of
the network keywords the classifier searches for. -/
theorem C5_counterexample :
    (executeWithRetry 1000 ⟨2, 100, 2, 10000⟩
        (fun _ => (AttemptOutcome.timeout : AttemptOutcome Bool))).result.error
      = some ⟨AuthErrorType.OAUTH_FAILED, timeoutMessage 1000, true⟩ ∧
    AuthErrorType.OAUTH_FAILED ≠ AuthErrorType.NETWORK_ERROR := by
  constructor
  · decide
  · decide

/-- C5 (amended): every attempt runs under the executeWithTimeout guard
with the service networkTimeoutMs (default 10000); an attempt that exceeds
it surfaces as the generic OAUTH_FAILED kind with retryable = true, so an
always-timing-out operation consumes the whole retry budget and its final
classified error has kind OAUTH_FAILED carrying the timeout message. -/
theorem C5_timeout_classified_oauth :
    ∀ (config : RetryConfig) (op : Nat → AttemptOutcome Bool),
      (∀ i, op i = AttemptOutcome.timeout) →
      (executeWithRetry 10000 config op).result.success = false ∧
      (executeWithRetry 10000 config op).result.error =
        some ⟨AuthErrorType.OAUTH_FAILED, timeoutMessage 10000, true⟩ ∧
      (executeWithRetry 10000 config op).executions =
        config.maxRetries + 1 := by
  intro config op hop
  have hop2 : ∀ i, executeWithTimeout 10000 (op i) =
      Except.error (RawJsError.jsError "Error" (timeoutMessage 10000)) := by
    intro i
    rw [hop i]
    rfl
  have hclass : handleError (RawJsError.jsError "Error" (timeoutMessage 10000))
      = ⟨AuthErrorType.OAUTH_FAILED, timeoutMessage 10000, true⟩ := by decide
  have hr : (handleError
      (RawJsError.jsError "Error" (timeoutMessage 10000))).retryable = true := by
    rw [hclass]
  rw [executeWithRetry_const_fail 10000 config op
    (RawJsError.jsError "Error" (timeoutMessage 10000)) hop2 hr, hclass]
  exact ⟨rfl, rfl, rfl⟩

/-- Witness for C5 on a concrete always-timing-out operation. -/
theorem C5_witness :
    (executeWithRetry 10000 ⟨2, 100, 2, 10000⟩
        (fun _ => (AttemptOutcome.timeout : AttemptOutcome Bool))).result.error
      = some ⟨AuthErrorType.OAUTH_FAILED, timeoutMessage 10000, true⟩ :=
  (C5_timeout_classified_oauth ⟨2, 100, 2, 10000⟩ _ (fun _ => rfl)).2.1

/-- C6 counterexample: handleError passes AuthError-shaped inputs through
unchanged, so an observable output can carry kind ACCESS_DENIED with
retryable = true, violating the claimed iff. -/
theorem C6_counterexample :
    (handleError (RawJsError.authShaped
        ⟨AuthErrorType.ACCESS_DENIED, "x", true⟩)).retryable = true ∧
    (handleError (RawJsError.authShaped
        ⟨AuthErrorType.ACCESS_DENIED, "x", true⟩)).type =
      AuthErrorType.ACCESS_DENIED ∧
    ¬(AuthErrorType.ACCESS_DENIED ∈ retryableKinds) := by decide

/-- C6 (amended): severity is a pure lookup on the kind exactly as the
spec table states; every AuthError that handleError constructs from an
input not already conforming to the AuthError shape has retryable = true
iff its kind is OAUTH_FAILED, NETWORK_ERROR or TOKEN_EXPIRED; and
AuthError-shaped inputs pass through unchanged with whatever retryable
flag they carry. -/
theorem C6_severity_and_retryable :
    (∀ e : AuthError, getErrorSeverity e = severityOfKind e.type) ∧
    (∀ e : RawJsError, (∀ a, e ≠ RawJsError.authShaped a) →
        ((handleError e).retryable = true ↔
          (handleError e).type ∈ retryableKinds)) ∧
    (∀ a : AuthError, handleError (RawJsError.authShaped a) = a) := by
  refine ⟨?_, ?_, fun a => rfl⟩
  · intro e
    obtain ⟨t, m, r⟩ := e
    cases t <;> rfl
  · intro e he
    cases e with
    | authShaped a => exact absurd rfl (he a)
    | jsError name msg =>
      unfold handleError
      by_cases hn : isNetworkErrorCheck name msg = true
      · simp [hn, retryableKinds]
      · simp only [Bool.not_eq_true] at hn
        simp only [hn, Bool.false_eq_true, if_false]
        unfold createGenericError
        by_cases h1 : (strIncludes (jsToLower msg) "token" &&
            strIncludes (jsToLower msg) "expired") = true
        · simp [h1, retryableKinds]
        · simp only [Bool.not_eq_true] at h1
          simp only [h1, Bool.false_eq_true, if_false]
          by_cases h2 : (strIncludes (jsToLower msg) "access" &&
              strIncludes (jsToLower msg) "denied") = true
          · simp [h2, retryableKinds]
          · simp only [Bool.not_eq_true] at h2
            simp only [h2, Bool.false_eq_true, if_false]
            by_cases h3 : (strIncludes (jsToLower msg) "config" ||
                strIncludes (jsToLower msg) "client_id") = true
            · simp [h3, retryableKinds]
            · simp only [Bool.not_eq_true] at h3
              simp [h3, retryableKinds]
    | strVal s => simp [handleError, retryableKinds]
    | otherVal => simp [handleError, retryableKinds]

/-- Witness for C6 on a concrete non-AuthError-shaped input. -/
theorem C6_witness :
    (handleError (RawJsError.jsError "Error" "boom")).retryable = true ↔
      (handleError (RawJsError.jsError "Error" "boom")).type ∈
        retryableKinds :=
  C6_severity_and_retryable.2.1 (RawJsError.jsError "Error" "boom")
    (fun _ h => RawJsError.noConfusion h)

/-- C7 counterexample: with no stored refresh token the refresh operation
is executed 3 times by the retry engine (the missing-token error is
classified retryable), not once. -/
theorem C7_counterexample :
    refreshTokenRun ⟨some "at", some "it", none⟩ (AttemptOutcome.ok true) =
      (false, false, 3) ∧ (3 : Nat) ≠ 1 := by
  constructor
  · decide
  · decide

/-- C7 (amended): when no refresh token is stored, refreshToken returns
false and never reaches the network; but the thrown missing-refresh-token
error is classified as retryable OAUTH_FAILED, so the retry engine
re-attempts the operation, executing it 3 times in total under the
call-site maxRetries = 2 before returning false. -/
theorem C7_no_refresh_token (st : TokenStorage) (net : AttemptOutcome Bool)
    (h : st.refreshToken = none) :
    refreshTokenRun st net = (false, false, 3) := by
  obtain ⟨sat, sit, srt⟩ := st
  have h2 : srt = none := h
  subst h2
  have hclass : (handleError (RawJsError.jsError "Error"
      "リフレッシュトークンが見つかりません")).retryable = true := by decide
  have hatt : (refreshAttempt ⟨sat, sit, none⟩ net).1 =
      AttemptOutcome.raise (RawJsError.jsError "Error"
        "リフレッシュトークンが見つかりません") := by
    cases sit <;> rfl
  have hatt2 : (refreshAttempt ⟨sat, sit, none⟩ net).2 = false := by
    cases sit <;> rfl
  have hrun := executeWithRetry_const_fail 10000 ⟨2, 1000, 2, 10000⟩
    (fun _ => (refreshAttempt ⟨sat, sit, none⟩ net).1)
    (RawJsError.jsError "Error" "リフレッシュトークンが見つかりません")
    (fun i => by rw [hatt]; rfl) hclass
  simp only [refreshTokenRun]
  rw [hrun, hatt2]
  simp

/-- Witness for C7 at a concrete storage state with no refresh token. -/
theorem C7_witness :
    refreshTokenRun ⟨none, some "stored-id-token", none⟩
      (AttemptOutcome.ok true) = (false, false, 3) :=
  C7_no_refresh_token ⟨none, some "stored-id-token", none⟩
    (AttemptOutcome.ok true) rfl

/-- C8 counterexample: the address a@b passes the conservative check as
the claim words it (single at sign, non-empty local and domain, no bad
dots in the domain), but the source regex additionally requires a dot
inside the domain, so validation rejects it with a CONFIG_ERROR. -/
theorem C8_counterexample :
    specEmailCheck "a@b" = true ∧ isValidEmail "a@b" = false ∧
    loadConfigValidate (ParsedJson.obj
        ⟨some "cid", some [JsonEntry.str "a@b"], some "1.0"⟩) =
      Except.error ⟨AuthErrorType.CONFIG_ERROR,
        "無効なメールアドレスが含まれています: a@b", true⟩ := by
  refine ⟨by decide, by decide, by decide⟩

/-- C8 (amended): loadConfig validation succeeds exactly on structurally
valid documents (client id present and non-empty, version present and
non-empty, allowedEmails an array of strings each passing the email
check); every validation failure raises CONFIG_ERROR with retryable =
true and a message naming the violated field or offending entry; and the
email check accepts exactly the addresses with a single at sign, no
whitespace, a non-empty local part, a dot inside the domain that is
neither its first nor last character, no consecutive dots anywhere, and a
domain that neither starts nor ends with a dot. -/
theorem C8_config_validation :
    (∀ json : ParsedJson,
        (∃ doc, loadConfigValidate json = Except.ok doc) ↔
          structurallyValidDoc json = true) ∧
    (∀ (json : ParsedJson) (err : AuthError),
        loadConfigValidate json = Except.error err →
        err.type = AuthErrorType.CONFIG_ERROR ∧ err.retryable = true ∧
          err.message ∈ validationMessages json) ∧
    (∀ email : String, isValidEmail email = amendedEmailCheck email) := by
  refine ⟨?_, ?_, isValidEmail_eq_amended⟩
  · intro json
    constructor
    · rintro ⟨doc, hd⟩
      unfold loadConfigValidate at hd
      cases hv : validateConfig json with
      | error m =>
        rw [hv] at hd
        cases hd
      | ok u =>
        cases u
        exact (validateConfig_ok_iff json).mp hv
    · intro hval
      cases json with
      | notObject => simp [structurallyValidDoc] at hval
      | obj doc =>
        have hok := (validateConfig_ok_iff (ParsedJson.obj doc)).mpr hval
        unfold loadConfigValidate
        rw [hok]
        exact ⟨doc, rfl⟩
  · intro json err h
    unfold loadConfigValidate at h
    cases hv : validateConfig json with
    | error msg =>
      rw [hv] at h
      injection h with h1
      subst h1
      exact ⟨rfl, rfl, validateConfig_error_mem hv⟩
    | ok u =>
      cases u
      rw [hv] at h
      cases json with
      | obj doc => cases h
      | notObject =>
        rw [validateConfig] at hv
        exact absurd hv (by simp)

/-- Witness for C8 on a concrete invalid document. -/
theorem C8_witness :
    (⟨AuthErrorType.CONFIG_ERROR, "設定ファイルの形式が無効です", true⟩ :
        AuthError).type = AuthErrorType.CONFIG_ERROR ∧
    (⟨AuthErrorType.CONFIG_ERROR, "設定ファイルの形式が無効です", true⟩ :
        AuthError).retryable = true ∧
    (⟨AuthErrorType.CONFIG_ERROR, "設定ファイルの形式が無効です", true⟩ :
        AuthError).message ∈ validationMessages ParsedJson.notObject :=
  C8_config_validation.2.1 ParsedJson.notObject
    ⟨AuthErrorType.CONFIG_ERROR, "設定ファイルの形式が無効です", true⟩
    (by decide)

/-- C9: the login flow of the source has no serialization: each login call
stores its resolver in loginResolve (overwriting any pending one) and
drives the provider prompt again, so two overlapping login calls drive
the interactive provider flow twice and the first call's resolver is
discarded rather than observing the first call's result. -/
theorem C9_concurrent_login_double_prompt :
    (loginStart 2 (loginStart 1 initialLoginFlow)).promptCount = 2 ∧
    (loginStart 2 (loginStart 1 initialLoginFlow)).promptCount ≠ 1 ∧
    (loginStart 2 (loginStart 1 initialLoginFlow)).loginResolve = some 2 ∧
    (loginStart 2 (loginStart 1 initialLoginFlow)).loginResolve ≠ some 1 := by
  decide

/-- C10: in every authentication state reachable through the updates of
checkAuthStatus, login and logout, isAuthenticated = true implies a
non-null user and a null error, and a recorded non-null error implies
isAuthenticated = false and a null user. -/
theorem C10_auth_state_invariant :
    ∀ s : AuthState, ReachableAuthState s →
      (s.isAuthenticated = true → (s.user.isSome = true ∧ s.error = none)) ∧
      (s.error.isSome = true →
        (s.isAuthenticated = false ∧ s.user = none)) := by
  intro s h
  induction h with
  | init => simp [initialAuthState]
  | begin_ s hs ih =>
    obtain ⟨a, u, il, er⟩ := s
    refine ⟨fun ha => ⟨(ih.1 ha).1, rfl⟩, fun he => ?_⟩
    simp [beginOperation] at he
  | authSuccess s u hs ih => simp [finishAuthenticated]
  | noUser s hs ih => simp [finishUnauthenticated]
  | failed s e hs ih => simp [finishFailed]
  | loggedOut s ok hs ih =>
    cases ok <;> simp [finishLogout]

/-- Witness for C10 at a concrete reachable authenticated state. -/
theorem C10_witness :
    (finishAuthenticated ⟨"id1", "a@x.com", "A", none⟩).user.isSome = true ∧
    (finishAuthenticated ⟨"id1", "a@x.com", "A", none⟩).error = none :=
  (C10_auth_state_invariant (finishAuthenticated ⟨"id1", "a@x.com", "A", none⟩)
    (ReachableAuthState.authSuccess initialAuthState
      ⟨"id1", "a@x.com", "A", none⟩ ReachableAuthState.init)).1 rfl

end MemoApp
